import Mathlib

/-!
Verification of the HouseHunter repository against its specification.

The repository ships a React frontend (src/frontend), a Makefile and the
project documentation; the Python data pipeline (listing normalizer,
similarity matcher, snapshot differencer, merge/lifecycle engine) described
by the specification is referenced by the README and Makefile but its
modules are not part of the checked-in sources.  Those components are
therefore modelled here directly from the specification text, while the
frontend functions are shallowly embedded from their JavaScript sources.
-/

namespace Houses

/-! Frontend: gallery and lightbox navigation.

Embedded from src/frontend/src/components/Lightbox.jsx and
src/frontend/src/components/ImageGallery.jsx.  JavaScript numbers on the
index arithmetic behave as integers here; `len` is `images.length` and
`i` the current index. -/

/-- Lightbox.jsx: onIndexChange((currentIndex + 1) % images.length). -/
def goToNext (len i : ℤ) : ℤ := (i + 1) % len

/-- Lightbox.jsx: onIndexChange((currentIndex - 1 + images.length) % images.length). -/
def goToPrevious (len i : ℤ) : ℤ := (i - 1 + len) % len

/-- ImageGallery.jsx: setCurrentIndex((prev + 1) % images.length). -/
def nextImage (len i : ℤ) : ℤ := (i + 1) % len

/-- ImageGallery.jsx: setCurrentIndex((prev - 1 + images.length) % images.length). -/
def prevImage (len i : ℤ) : ℤ := (i - 1 + len) % len

/-! Frontend: days-live badge.

Embedded from ListingCard.jsx and ListingDetailPage.jsx.  Both views guard
the badge with the JavaScript truthiness test
`listing.is_sold && listing.days_live`, and both display
`Math.round(listing.days_live)`.  A missing `days_live` is `none`; the
numeric value is modelled as a rational, and the JavaScript truthiness of a
number is falsity exactly at zero.  `Math.round x` is the floor of
`x + 1/2`, which is Mathlib's `round`. -/

structure FrontendListing where
  is_sold : Bool
  days_live : Option ℚ
deriving DecidableEq

/-- The badge renders iff `listing.is_sold && listing.days_live` is truthy. -/
def showDaysLiveBadge (l : FrontendListing) : Bool :=
  l.is_sold &&
    (match l.days_live with
     | none => false
     | some d => decide (d ≠ 0))

/-- The number displayed in the badge: Math.round(listing.days_live). -/
def daysLiveBadgeValue (d : ℚ) : ℤ := round d

/-! Frontend: image URL construction.

Embedded from src/frontend/src/api/listings.js (getImageUrls and
getFloorPlanUrls).  A listing carries an optional folder path, an optional
image count and optional floor-plan indices; JavaScript falsiness of
`folder_path` covers both a missing value and the empty string, and
falsiness of `image_count` covers both a missing value and zero. -/

structure ApiListing where
  folder_path : Option String
  image_count : Option ℕ
  floor_plan_indices : Option (List ℕ)
deriving DecidableEq

/-- listings.js: listing.folder_path.replace showing data/scraped/ stripped. -/
def basePath (fp : String) : String := fp.replace "data/scraped/" ""

/-- listings.js: String(i).padStart(3, the zero character). -/
def pad3 (i : ℕ) : String :=
  let s := toString i
  String.mk (List.replicate (3 - s.length) '0') ++ s

/-- One image URL, as built by both functions in listings.js. -/
def imageUrl (base : String) (i : ℕ) : String :=
  "/images/" ++ base ++ "/image_" ++ pad3 i ++ ".jpg"

/-- listings.js getImageUrls: guard on falsy folder_path or image_count,
then Array.from of length image_count indexed 0..count-1. -/
def getImageUrls (l : ApiListing) : List String :=
  match l.folder_path, l.image_count with
  | some fp, some c =>
      if fp = "" ∨ c = 0 then []
      else (List.range c).map (imageUrl (basePath fp))
  | _, _ => []

/-- listings.js getFloorPlanUrls: same guard, then missing or empty
floor_plan_indices yield the empty list, and the kept indices are those
strictly below image_count. -/
def getFloorPlanUrls (l : ApiListing) : List String :=
  match l.folder_path, l.image_count with
  | some fp, some c =>
      if fp = "" ∨ c = 0 then []
      else
        match l.floor_plan_indices with
        | none => []
        | some idxs =>
            if idxs = [] then []
            else (idxs.filter (fun i => decide (i < c))).map (imageUrl (basePath fp))
  | _, _ => []

/-! Core pipeline, modelled from the specification.

The normalizer, similarity matcher, snapshot differencer and
merge/lifecycle engine live in the Python modules (scraping/,
househunter_workflow.ipynb) that are not among the checked-in sources;
only the README and Makefile refer to them.  The definitions below are
modelled from the specification text (sections 3, 4 and 7). -/

/-- Modelled from the spec: section 4.1, the NormalizedListing produced by
the Listing Normalizer, which is absent from the sources.  Each of price,
surface and coordinates is a numeric value or an explicit unknown
(`none`); portal and native id are preserved verbatim. -/
structure NormalizedListing where
  portal : String
  nativeId : String
  price : Option ℚ
  surface : Option ℚ
  coords : Option (ℚ × ℚ)
deriving DecidableEq

/-- Modelled from the spec: section 4.2, the fixed matching threshold of
100 meters on great-circle distance. -/
def matchThresholdMeters : ℚ := 100

/-- Modelled from the spec: section 4.2, the Similarity Matcher, absent
from the sources.  The great-circle distance formula is irrational-valued,
so the matcher is parametric in the distance function `dist`; the
predicate requires both prices known and exactly equal, both surfaces
known and exactly equal, and both coordinate pairs known with
`dist` at most the 100 meter threshold, and is false whenever any field is
unknown on either side. -/
def matchListings (dist : ℚ × ℚ → ℚ × ℚ → ℚ) (a b : NormalizedListing) : Bool :=
  match a.price, b.price, a.surface, b.surface, a.coords, b.coords with
  | some pa, some pb, some sa, some sb, some ca, some cb =>
      decide (pa = pb) && decide (sa = sb) && decide (dist ca cb ≤ matchThresholdMeters)
  | _, _, _, _, _, _ => false

/-- Modelled from the spec: section 4.1, the RawListing fields the
normalizer parses; the free-text attributes stand for whatever the portal
markup supplied. -/
structure RawListing where
  portal : String
  nativeId : String
  priceText : String
  surfaceText : String
  coordsText : String
deriving DecidableEq

/-- Modelled from the spec: section 4.1, the Listing Normalizer, absent
from the sources.  It is parametric in the three field parsers; a parser
returning `none` degrades the field to unknown, and the record is always
retained with portal and native id preserved verbatim. -/
def normalizeListing (parseP parseS : String → Option ℚ)
    (parseC : String → Option (ℚ × ℚ)) (r : RawListing) : NormalizedListing :=
  { portal := r.portal
    nativeId := r.nativeId
    price := parseP r.priceText
    surface := parseS r.surfaceText
    coords := parseC r.coordsText }

/-- Modelled from the spec: section 4.2, same-portal identity is decided
by native id equality, not similarity. -/
def samePortalIdentity (a b : NormalizedListing) : Bool :=
  decide (a.portal = b.portal) && decide (a.nativeId = b.nativeId)

/-- Modelled from the spec: section 4.3, the result record of the
Snapshot Differencer, absent from the sources. -/
structure DiffResult where
  new : Finset String
  persisting : Finset String
  vanished : Finset String
deriving DecidableEq

/-- Modelled from the spec: section 4.3, the Snapshot Differencer, absent
from the sources: a pure set partition of two snapshots of portal-native
ids into new, persisting and vanished. -/
def diff (previous current : Finset String) : DiffResult :=
  { new := current \ previous
    persisting := current ∩ previous
    vanished := previous \ current }

/-- Sample listing on the first portal, from the end-to-end scenario of
spec section 8. -/
def sampleImmo : NormalizedListing :=
  ⟨"immobiliare", "immo_1", some 300000, some 80, some (44.50, 11.34)⟩

/-- Sample listing on the second portal with the same price and surface. -/
def sampleIdea : NormalizedListing :=
  ⟨"idealista", "idea_2", some 300000, some 80, some (44.5003, 11.3401)⟩

/-- Sample listing with the price off by one euro. -/
def sampleIdeaPriceOff : NormalizedListing :=
  ⟨"idealista", "idea_2", some 300001, some 80, some (44.5003, 11.3401)⟩

/-- Sample listing with the surface off by one square meter. -/
def sampleIdeaSurfaceOff : NormalizedListing :=
  ⟨"idealista", "idea_2", some 300000, some 81, some (44.5003, 11.3401)⟩

/-- Modelled from the spec: section 4.4, the per-member automaton phases
of the Merge/Lifecycle Engine, absent from the sources. -/
inductive MemberPhase
  | NEW
  | ACTIVE
  | PENDING_VANISH
  | VANISHED
deriving DecidableEq

/-- Modelled from the spec: the state of one {portal, native id} member:
its automaton phase together with whether it was ever confirmed active
(needed by section 4.4 to distinguish sold from removed-by-portal). -/
structure MemberState where
  phase : MemberPhase
  everActive : Bool
deriving DecidableEq

/-- Modelled from the spec: section 4.4 member transitions, driven by
presence or absence of the native id in the portal's next snapshot.
NEW goes to ACTIVE on re-observation; a first absence moves any live
member to PENDING_VANISH (the mandatory debounce of section 4.3 applies to
every disappearance, also of a NEW member, which is how a member can reach
VANISHED while never confirmed active); PENDING_VANISH returns to ACTIVE
on reappearance in the very next snapshot and falls to the terminal
VANISHED on a second consecutive absence. -/
def memberStep (s : MemberState) (present : Bool) : MemberState :=
  match s.phase, present with
  | .NEW, true => ⟨.ACTIVE, true⟩
  | .NEW, false => ⟨.PENDING_VANISH, s.everActive⟩
  | .ACTIVE, true => ⟨.ACTIVE, true⟩
  | .ACTIVE, false => ⟨.PENDING_VANISH, s.everActive⟩
  | .PENDING_VANISH, true => ⟨.ACTIVE, true⟩
  | .PENDING_VANISH, false => ⟨.VANISHED, s.everActive⟩
  | .VANISHED, _ => s

/-- Modelled from the spec: a member is live while not VANISHED. -/
def memberLive (s : MemberState) : Bool :=
  match s.phase with
  | .VANISHED => false
  | _ => true

/-- Modelled from the spec: section 3, the aggregate status of a canonical
listing. -/
inductive AggStatus
  | active
  | sold
  | removedByPortal
deriving DecidableEq

/-- Modelled from the spec: section 4.4, the aggregate status derived
(recomputed, never stored) from the member states: active if any member is
NEW, ACTIVE or PENDING_VANISH; sold if all members are VANISHED and one
was confirmed active; removed-by-portal if all vanished while still NEW. -/
def aggregateStatus (members : List MemberState) : AggStatus :=
  if members.any memberLive then .active
  else if members.any (fun m => m.everActive) then .sold
  else .removedByPortal

/-- Association list lookup keyed by decidable equality. -/
def assocGet {α β : Type} [DecidableEq α] (k : α) : List (α × β) → Option β
  | [] => none
  | (k2, x) :: rest => if k = k2 then some x else assocGet k rest

/-- Association list insert-or-update keyed by decidable equality. -/
def assocSet {α β : Type} [DecidableEq α] (k : α) (x : β) :
    List (α × β) → List (α × β)
  | [] => [(k, x)]
  | (k2, y) :: rest =>
      if k = k2 then (k, x) :: rest else (k2, y) :: assocSet k x rest

/-- Modelled from the spec: one snapshot presented to the engine: the
portal, the snapshot date (an ordinal, chronological order is the order on
naturals) and the set of portal-native ids observed. -/
structure Snapshot where
  portal : String
  date : ℕ
  ids : List String
deriving DecidableEq

/-- Modelled from the spec: the per-portal bookkeeping of the engine: the
snapshot dates already processed (newest first) and the most recent
snapshot's id set kept to compute the next diff. -/
structure PortalState where
  processedDates : List ℕ
  lastIds : List String
deriving DecidableEq

/-- Modelled from the spec: sections 4.4 and 4.5, the canonical store and
engine state: per-portal bookkeeping plus the member automata keyed by
{portal, native id}. -/
structure EngineState where
  portals : List (String × PortalState)
  members : List ((String × String) × MemberState)
deriving DecidableEq

/-- The dates already processed for a portal. -/
def portalProcessed (st : EngineState) (p : String) : List ℕ :=
  ((assocGet p st.portals).getD ⟨[], []⟩).processedDates

/-- Duplicate-free id list (set semantics of a snapshot). -/
def dedupIds : List String → List String
  | [] => []
  | x :: xs => if x ∈ xs then dedupIds xs else x :: dedupIds xs

/-- Modelled from the spec: processing one in-order snapshot: record its
date and id set for the portal, advance every member automaton of that
portal by presence or absence of its native id (the differencer signal),
and create a NEW member for every id seen for the first time. -/
def processSnapshot (st : EngineState) (snap : Snapshot) : EngineState :=
  { portals := assocSet snap.portal
      ⟨snap.date :: portalProcessed st snap.portal, snap.ids⟩ st.portals
    members :=
      st.members.map (fun m =>
        if m.1.1 = snap.portal then
          (m.1, memberStep m.2 (decide (m.1.2 ∈ snap.ids)))
        else m)
      ++ ((dedupIds snap.ids).filter
            (fun nid => (assocGet (snap.portal, nid) st.members).isNone)).map
          (fun nid => ((snap.portal, nid), ⟨.NEW, false⟩)) }

/-- Modelled from the spec: sections 4.4, 4.5 and 7, the engine boundary.
A snapshot whose date was already processed for its portal is a duplicate
replay, detected and no-op'd; a snapshot dated earlier than some processed
date (and itself unprocessed) is an out-of-order ingestion, rejected with
a caller-visible error; otherwise the snapshot is processed. -/
def ingest (st : EngineState) (snap : Snapshot) : Except String EngineState :=
  if snap.date ∈ portalProcessed st snap.portal then
    Except.ok st
  else if (portalProcessed st snap.portal).any (fun d => decide (snap.date < d)) then
    Except.error "out-of-order snapshot ingestion: caller must sort"
  else
    Except.ok (processSnapshot st snap)

/-- One fold step: a rejected snapshot leaves the canonical state
unchanged, as the spec requires of the error path. -/
def stepFold (st : EngineState) (snap : Snapshot) : EngineState :=
  match ingest st snap with
  | .ok st2 => st2
  | .error _ => st

/-- Folding an ordered snapshot sequence through the engine. -/
def foldSnapshots (st : EngineState) (snaps : List Snapshot) : EngineState :=
  snaps.foldl stepFold st

/-- A snapshot the engine will no longer process at a state: its date is
already recorded for its portal, or some strictly later date is. -/
def handled (st : EngineState) (snap : Snapshot) : Prop :=
  snap.date ∈ portalProcessed st snap.portal ∨
    ∃ d ∈ portalProcessed st snap.portal, snap.date < d

end Houses

namespace Houses

/-- C9: for a non-empty image list of length n and a current index in
[0, n), both navigation functions stay in [0, n) (wrapping modulo n),
next and previous are mutually inverse, and the ImageGallery arrow
handlers compute the same functions as the Lightbox ones. -/
theorem gallery_navigation (n i : ℤ) (h0 : 0 ≤ i) (h1 : i < n) :
    0 ≤ goToNext n i ∧ goToNext n i < n ∧
    0 ≤ goToPrevious n i ∧ goToPrevious n i < n ∧
    goToPrevious n (goToNext n i) = i ∧
    goToNext n (goToPrevious n i) = i ∧
    nextImage n i = goToNext n i ∧ prevImage n i = goToPrevious n i := by
  have hn : 0 < n := lt_of_le_of_lt h0 h1
  have hnz : n ≠ 0 := ne_of_gt hn
  have hnext : goToNext n i = if i + 1 = n then 0 else i + 1 := by
    unfold goToNext
    by_cases he : i + 1 = n
    · simp [he, Int.emod_self]
    · have : i + 1 < n := lt_of_le_of_ne (by omega) he
      rw [Int.emod_eq_of_lt (by omega) this]
      simp [he]
  have hprev : goToPrevious n i = if i = 0 then n - 1 else i - 1 := by
    unfold goToPrevious
    by_cases he : i = 0
    · subst he
      rw [if_pos rfl]
      have : (0 : ℤ) - 1 + n = n - 1 := by ring
      rw [this, Int.emod_eq_of_lt (by omega) (by omega)]
    · have : i - 1 + n = (i - 1) + 1 * n := by ring
      rw [this, Int.add_mul_emod_self, Int.emod_eq_of_lt (by omega) (by omega)]
      simp [he]
  refine ⟨?_, ?_, ?_, ?_, ?_, ?_, rfl, rfl⟩
  · exact Int.emod_nonneg _ hnz
  · exact Int.emod_lt_of_pos _ hn
  · exact Int.emod_nonneg _ hnz
  · exact Int.emod_lt_of_pos _ hn
  · rw [hnext]
    by_cases he : i + 1 = n
    · rw [if_pos he]
      unfold goToPrevious
      have : (0 : ℤ) - 1 + n = n - 1 := by ring
      rw [this, Int.emod_eq_of_lt (by omega) (by omega)]
      omega
    · rw [if_neg he]
      unfold goToPrevious
      have : i + 1 - 1 + n = i + 1 * n := by ring
      rw [this, Int.add_mul_emod_self, Int.emod_eq_of_lt h0 h1]
  · rw [hprev]
    by_cases he : i = 0
    · rw [if_pos he]
      unfold goToNext
      have : n - 1 + 1 = n := by ring
      rw [this, Int.emod_self]
      omega
    · rw [if_neg he]
      unfold goToNext
      have : i - 1 + 1 = i := by ring
      rw [this, Int.emod_eq_of_lt h0 h1]

/-- Witness for C9 at n = 3, i = 2. -/
theorem gallery_navigation_witness :
    0 ≤ goToNext 3 2 ∧ goToNext 3 2 < 3 ∧
    0 ≤ goToPrevious 3 2 ∧ goToPrevious 3 2 < 3 ∧
    goToPrevious 3 (goToNext 3 2) = 2 ∧
    goToNext 3 (goToPrevious 3 2) = 2 ∧
    nextImage 3 2 = goToNext 3 2 ∧ prevImage 3 2 = goToPrevious 3 2 :=
  gallery_navigation 3 2 (by decide) (by decide)

/-- C10: the days-live badge is shown iff `is_sold` holds and `days_live`
is present and nonzero; in particular a sold listing with `days_live = 0`
shows no badge; when shown, the value displayed is `Math.round(days_live)`,
namely the floor of `days_live + 1/2`, so the stored value need not be a
whole number of days (7/2 rounds to 4). -/
theorem days_live_badge (l : FrontendListing) :
    (showDaysLiveBadge l = true ↔
      l.is_sold = true ∧ ∃ d, l.days_live = some d ∧ d ≠ 0) ∧
    (l.days_live = some 0 → showDaysLiveBadge l = false) ∧
    (∀ d : ℚ, daysLiveBadgeValue d = ⌊d + 1 / 2⌋) ∧
    daysLiveBadgeValue (7 / 2) = 4 := by
  obtain ⟨sold, dl⟩ := l
  refine ⟨?_, ?_, ?_, ?_⟩
  · cases dl with
    | none => simp [showDaysLiveBadge]
    | some d =>
      by_cases hd : d = 0 <;> simp [showDaysLiveBadge, hd]
  · intro h
    simp only at h
    simp [showDaysLiveBadge, h]
  · intro d
    unfold daysLiveBadgeValue
    exact round_eq d
  · unfold daysLiveBadgeValue
    norm_num [round_eq]

/-- Witness for C10: a sold listing with days_live zero shows no badge, one
with days_live 7/2 shows the badge, and the displayed value rounds. -/
theorem days_live_badge_witness :
    showDaysLiveBadge ⟨true, some 0⟩ = false ∧
    showDaysLiveBadge ⟨true, some (7 / 2)⟩ = true ∧
    daysLiveBadgeValue (7 / 2) = 4 := by
  refine ⟨(days_live_badge ⟨true, some 0⟩).2.1 rfl, ?_,
    (days_live_badge ⟨true, some 0⟩).2.2.2⟩
  exact (days_live_badge ⟨true, some (7 / 2)⟩).1.mpr ⟨rfl, 7 / 2, rfl, by norm_num⟩

/-- C8: every floor-plan URL is also an image URL; both functions return
the empty list when folder_path or image_count is missing; with both
present (and the path non-empty) getImageUrls is exactly the image_count
URLs at indices 0..count-1, and getFloorPlanUrls maps exactly the
floor-plan indices strictly below image_count through the same URL
builder. -/
theorem floor_plans_subset_images (l : ApiListing) :
    (∀ u ∈ getFloorPlanUrls l, u ∈ getImageUrls l) ∧
    ((l.folder_path = none ∨ l.image_count = none) →
      getImageUrls l = [] ∧ getFloorPlanUrls l = []) ∧
    (∀ fp c, l.folder_path = some fp → l.image_count = some c → fp ≠ "" →
      getImageUrls l = (List.range c).map (imageUrl (basePath fp)) ∧
      (getImageUrls l).length = c ∧
      (∀ idxs, l.floor_plan_indices = some idxs →
        getFloorPlanUrls l =
          (idxs.filter (fun i => decide (i < c))).map (imageUrl (basePath fp)))) := by
  obtain ⟨fp?, c?, idxs?⟩ := l
  refine ⟨?_, ?_, ?_⟩
  · intro u hu
    cases fp? with
    | none => simp [getFloorPlanUrls] at hu
    | some fp =>
      cases c? with
      | none => simp [getFloorPlanUrls] at hu
      | some c =>
        by_cases hg : fp = "" ∨ c = 0
        · simp [getFloorPlanUrls, hg] at hu
        · cases idxs? with
          | none => simp [getFloorPlanUrls, hg] at hu
          | some idxs =>
            by_cases he : idxs = []
            · simp [getFloorPlanUrls, hg, he] at hu
            · simp only [getFloorPlanUrls, if_neg hg, if_neg he, List.mem_map,
                List.mem_filter, decide_eq_true_eq] at hu
              obtain ⟨i, ⟨hi, hic⟩, rfl⟩ := hu
              simp only [getImageUrls, if_neg hg, List.mem_map, List.mem_range]
              exact ⟨i, hic, rfl⟩
  · rintro (h | h) <;> subst h
    · exact ⟨rfl, rfl⟩
    · cases fp? <;> exact ⟨rfl, rfl⟩
  · rintro fp c rfl rfl hfp
    have hg : ¬(fp = "" ∨ c = 0) ∨ c = 0 := by
      by_cases hc : c = 0
      · exact Or.inr hc
      · exact Or.inl (by simp [hfp, hc])
    rcases hg with hg | hc
    · refine ⟨by simp [getImageUrls, if_neg hg], ?_, ?_⟩
      · simp [getImageUrls, if_neg hg]
      · rintro idxs rfl
        by_cases he : idxs = []
        · subst he
          simp [getFloorPlanUrls, if_neg hg]
        · simp [getFloorPlanUrls, if_neg hg, if_neg he]
    · subst hc
      refine ⟨by simp [getImageUrls], by simp [getImageUrls], ?_⟩
      rintro idxs rfl
      have : idxs.filter (fun i => decide (i < 0)) = [] := by
        simp [List.filter_eq_nil_iff]
      rw [this]
      by_cases he : idxs = [] <;> simp [getFloorPlanUrls, he]

/-- Witness for C8 at a listing with three images and floor-plan indices
zero, two and seven (seven is out of range and dropped). -/
theorem floor_plans_subset_images_witness :
    getImageUrls ⟨some "data/scraped/a", some 3, some [0, 2, 7]⟩ =
      (List.range 3).map (imageUrl (basePath "data/scraped/a")) ∧
    (getImageUrls ⟨some "data/scraped/a", some 3, some [0, 2, 7]⟩).length = 3 ∧
    getFloorPlanUrls ⟨some "data/scraped/a", some 3, some [0, 2, 7]⟩ =
      ([0, 2, 7].filter (fun i => decide (i < 3))).map (imageUrl (basePath "data/scraped/a")) := by
  have h :=
    (floor_plans_subset_images ⟨some "data/scraped/a", some 3, some [0, 2, 7]⟩).2.2
      "data/scraped/a" 3 rfl rfl (by decide)
  exact ⟨h.1, h.2.1, h.2.2 [0, 2, 7] rfl⟩

/-- C1: for every distance function and every pair of normalized listings,
the matcher returns true iff both prices are known and equal, both
surfaces are known and equal, and both coordinate pairs are known with
distance at most the 100 meter threshold; on the concrete sample pair,
equal attributes at distance 100 match, while a price off by one euro, a
surface off by one square meter, or a distance of 101 meters each break
the match. -/
theorem matcher_characterization :
    (∀ (dist : ℚ × ℚ → ℚ × ℚ → ℚ) (a b : NormalizedListing),
      matchListings dist a b = true ↔
        (∃ p, a.price = some p ∧ b.price = some p) ∧
        (∃ s, a.surface = some s ∧ b.surface = some s) ∧
        (∃ ca cb, a.coords = some ca ∧ b.coords = some cb ∧
          dist ca cb ≤ matchThresholdMeters)) ∧
    matchListings (fun _ _ => 100) sampleImmo sampleIdea = true ∧
    matchListings (fun _ _ => 0) sampleImmo sampleIdeaPriceOff = false ∧
    matchListings (fun _ _ => 0) sampleImmo sampleIdeaSurfaceOff = false ∧
    matchListings (fun _ _ => 101) sampleImmo sampleIdea = false := by
  refine ⟨?_, by decide, by decide, by decide, by decide⟩
  intro dist a b
  obtain ⟨ap, an, pp, ss, cc⟩ := a
  obtain ⟨bp, bn, pp2, ss2, cc2⟩ := b
  cases pp <;> cases pp2 <;> cases ss <;> cases ss2 <;> cases cc <;> cases cc2 <;>
    (simp [matchListings]; try tauto)

/-- Witness for C1: the characterization applied at the sample pair with a
distance function constantly 100, and the perturbed pairs. -/
theorem matcher_characterization_witness :
    matchListings (fun _ _ => 100) sampleImmo sampleIdea = true ∧
    matchListings (fun _ _ => 0) sampleImmo sampleIdeaPriceOff = false ∧
    matchListings (fun _ _ => 0) sampleImmo sampleIdeaSurfaceOff = false ∧
    matchListings (fun _ _ => 101) sampleImmo sampleIdea = false := by
  have h := matcher_characterization.1 (fun _ _ => 100) sampleImmo sampleIdea
  refine ⟨h.mpr ⟨⟨300000, rfl, rfl⟩, ⟨80, rfl, rfl⟩,
    ⟨(44.50, 11.34), (44.5003, 11.3401), rfl, rfl, by norm_num [matchThresholdMeters]⟩⟩,
    matcher_characterization.2.2.1, matcher_characterization.2.2.2.1,
    matcher_characterization.2.2.2.2⟩

/-- C2: the differencer is exactly the pure set partition of the spec, and
new, persisting and vanished partition the union of the two snapshots with
no overlap and no omission. -/
theorem diff_partition (previous current : Finset String) :
    (diff previous current).new = current \ previous ∧
    (diff previous current).persisting = current ∩ previous ∧
    (diff previous current).vanished = previous \ current ∧
    ((diff previous current).new ∪ (diff previous current).persisting ∪
      (diff previous current).vanished) = previous ∪ current ∧
    Disjoint (diff previous current).new (diff previous current).persisting ∧
    Disjoint (diff previous current).new (diff previous current).vanished ∧
    Disjoint (diff previous current).persisting (diff previous current).vanished := by
  refine ⟨rfl, rfl, rfl, ?_, ?_, ?_, ?_⟩
  · ext x
    simp only [diff, Finset.mem_union, Finset.mem_sdiff, Finset.mem_inter]
    tauto
  · rw [Finset.disjoint_left]
    intro x hx hx2
    simp only [diff, Finset.mem_sdiff, Finset.mem_inter] at hx hx2
    tauto
  · rw [Finset.disjoint_left]
    intro x hx hx2
    simp only [diff, Finset.mem_sdiff] at hx hx2
    tauto
  · rw [Finset.disjoint_left]
    intro x hx hx2
    simp only [diff, Finset.mem_sdiff, Finset.mem_inter] at hx hx2
    tauto

/-- Witness for C2 at the snapshots containing ids a, b and b, c. -/
theorem diff_partition_witness :
    ((diff {"a", "b"} {"b", "c"}).new ∪ (diff {"a", "b"} {"b", "c"}).persisting ∪
      (diff {"a", "b"} {"b", "c"}).vanished) = {"a", "b"} ∪ {"b", "c"} ∧
    Disjoint (diff {"a", "b"} {"b", "c"}).new (diff {"a", "b"} {"b", "c"}).vanished :=
  ⟨(diff_partition {"a", "b"} {"b", "c"}).2.2.2.1,
   (diff_partition {"a", "b"} {"b", "c"}).2.2.2.2.2.1⟩

/-- C6: any unknown field on either side makes the matcher return false
regardless of the other fields; the normalizer retains a record whose
attributes fail to parse, preserving portal and native id with the failed
fields unknown, and two records from the same portal with the same native
id are still identified for same-portal tracking whatever their parsers
returned. -/
theorem unknown_disqualifies_matching (dist : ℚ × ℚ → ℚ × ℚ → ℚ)
    (a b : NormalizedListing)
    (h : a.price = none ∨ a.surface = none ∨ a.coords = none ∨
      b.price = none ∨ b.surface = none ∨ b.coords = none) :
    matchListings dist a b = false ∧
    (∀ parseP parseS parseC (r : RawListing),
      (normalizeListing parseP parseS parseC r).portal = r.portal ∧
      (normalizeListing parseP parseS parseC r).nativeId = r.nativeId ∧
      (parseP r.priceText = none →
        (normalizeListing parseP parseS parseC r).price = none) ∧
      (parseS r.surfaceText = none →
        (normalizeListing parseP parseS parseC r).surface = none) ∧
      (parseC r.coordsText = none →
        (normalizeListing parseP parseS parseC r).coords = none)) ∧
    (∀ parseP parseS parseC parseP2 parseS2 parseC2 (r r2 : RawListing),
      r.portal = r2.portal → r.nativeId = r2.nativeId →
      samePortalIdentity (normalizeListing parseP parseS parseC r)
        (normalizeListing parseP2 parseS2 parseC2 r2) = true) := by
  refine ⟨?_, ?_, ?_⟩
  · obtain ⟨ap, an, pp, ss, cc⟩ := a
    obtain ⟨bp, bn, pp2, ss2, cc2⟩ := b
    simp only at h
    cases pp <;> cases pp2 <;> cases ss <;> cases ss2 <;> cases cc <;> cases cc2 <;>
      simp_all [matchListings]
  · intro parseP parseS parseC r
    exact ⟨rfl, rfl, fun h2 => h2, fun h2 => h2, fun h2 => h2⟩
  · intro parseP parseS parseC parseP2 parseS2 parseC2 r r2 hp hn
    simp [samePortalIdentity, normalizeListing, hp, hn]

/-- Witness for C6 at a listing with unknown price matched against a fully
known one, plus a record whose parsers all fail. -/
theorem unknown_disqualifies_matching_witness :
    matchListings (fun _ _ => 0)
      ⟨"immobiliare", "x", none, some 80, some (1, 2)⟩
      ⟨"idealista", "y", some 300000, some 80, some (1, 2)⟩ = false ∧
    (normalizeListing (fun _ => none) (fun _ => none) (fun _ => none)
      ⟨"immobiliare", "x", "?", "?", "?"⟩).portal = "immobiliare" ∧
    (normalizeListing (fun _ => none) (fun _ => none) (fun _ => none)
      ⟨"immobiliare", "x", "?", "?", "?"⟩).nativeId = "x" ∧
    (normalizeListing (fun _ => none) (fun _ => none) (fun _ => none)
      ⟨"immobiliare", "x", "?", "?", "?"⟩).price = none := by
  have h := unknown_disqualifies_matching (fun _ _ => 0)
    ⟨"immobiliare", "x", none, some 80, some (1, 2)⟩
    ⟨"idealista", "y", some 300000, some 80, some (1, 2)⟩ (Or.inl rfl)
  have h2 := h.2.1 (fun _ => none) (fun _ => none) (fun _ => none)
    ⟨"immobiliare", "x", "?", "?", "?"⟩
  exact ⟨h.1, h2.1, h2.2.1, h2.2.2.1 rfl⟩

theorem assocGet_assocSet_self {α β : Type} [DecidableEq α] (k : α) (x : β)
    (l : List (α × β)) : assocGet k (assocSet k x l) = some x := by
  induction l with
  | nil => simp [assocGet, assocSet]
  | cons hd tl ih =>
    obtain ⟨k2, y⟩ := hd
    by_cases hk : k = k2
    · simp [assocSet, hk, assocGet]
    · simp [assocSet, hk, assocGet, ih]

theorem assocGet_assocSet_ne {α β : Type} [DecidableEq α] {p k : α}
    (h : p ≠ k) (x : β) (l : List (α × β)) :
    assocGet p (assocSet k x l) = assocGet p l := by
  induction l with
  | nil => simp [assocGet, assocSet, h]
  | cons hd tl ih =>
    obtain ⟨k2, y⟩ := hd
    by_cases hk : k = k2
    · subst hk
      simp [assocSet, assocGet, h]
    · simp [assocSet, hk, assocGet, ih]

theorem portalProcessed_processSnapshot (st : EngineState) (snap : Snapshot)
    (p : String) :
    portalProcessed (processSnapshot st snap) p =
      if p = snap.portal then snap.date :: portalProcessed st snap.portal
      else portalProcessed st p := by
  unfold portalProcessed processSnapshot
  by_cases hp : p = snap.portal
  · rw [if_pos hp, hp, assocGet_assocSet_self]
    rfl
  · rw [if_neg hp, assocGet_assocSet_ne hp]

theorem stepFold_eq_of_mem {st : EngineState} {snap : Snapshot}
    (h : snap.date ∈ portalProcessed st snap.portal) : stepFold st snap = st := by
  unfold stepFold ingest
  rw [if_pos h]

theorem stepFold_eq_of_blocked {st : EngineState} {snap : Snapshot}
    (h1 : snap.date ∉ portalProcessed st snap.portal)
    (h2 : (portalProcessed st snap.portal).any (fun d => decide (snap.date < d)) = true) :
    stepFold st snap = st := by
  unfold stepFold ingest
  rw [if_neg h1, if_pos h2]

theorem stepFold_eq_process {st : EngineState} {snap : Snapshot}
    (h1 : snap.date ∉ portalProcessed st snap.portal)
    (h2 : (portalProcessed st snap.portal).any (fun d => decide (snap.date < d)) = false) :
    stepFold st snap = processSnapshot st snap := by
  unfold stepFold ingest
  rw [if_neg h1, if_neg (by simp [h2])]

theorem mem_portalProcessed_stepFold {st : EngineState} {p : String} {d : ℕ}
    (snap : Snapshot) (h : d ∈ portalProcessed st p) :
    d ∈ portalProcessed (stepFold st snap) p := by
  by_cases h1 : snap.date ∈ portalProcessed st snap.portal
  · rw [stepFold_eq_of_mem h1]; exact h
  · cases h2 : (portalProcessed st snap.portal).any (fun d => decide (snap.date < d)) with
    | true => rw [stepFold_eq_of_blocked h1 h2]; exact h
    | false =>
      rw [stepFold_eq_process h1 h2, portalProcessed_processSnapshot]
      by_cases hp : p = snap.portal
      · subst hp
        rw [if_pos rfl]
        exact List.mem_cons_of_mem _ h
      · rw [if_neg hp]
        exact h

theorem handled_stepFold {st : EngineState} {snap : Snapshot} (snap2 : Snapshot)
    (h : handled st snap) : handled (stepFold st snap2) snap := by
  rcases h with h | ⟨d, hd, hlt⟩
  · exact Or.inl (mem_portalProcessed_stepFold snap2 h)
  · exact Or.inr ⟨d, mem_portalProcessed_stepFold snap2 hd, hlt⟩

theorem handled_stepFold_self (st : EngineState) (snap : Snapshot) :
    handled (stepFold st snap) snap := by
  by_cases h1 : snap.date ∈ portalProcessed st snap.portal
  · rw [stepFold_eq_of_mem h1]
    exact Or.inl h1
  · cases h2 : (portalProcessed st snap.portal).any (fun d => decide (snap.date < d)) with
    | true =>
      rw [stepFold_eq_of_blocked h1 h2]
      rcases List.any_eq_true.mp h2 with ⟨d, hd, hlt⟩
      exact Or.inr ⟨d, hd, of_decide_eq_true hlt⟩
    | false =>
      rw [stepFold_eq_process h1 h2]
      left
      rw [portalProcessed_processSnapshot, if_pos rfl]
      exact List.mem_cons_self _ _

theorem stepFold_of_handled {st : EngineState} {snap : Snapshot}
    (h : handled st snap) : stepFold st snap = st := by
  rcases h with h | ⟨d, hd, hlt⟩
  · exact stepFold_eq_of_mem h
  · by_cases h1 : snap.date ∈ portalProcessed st snap.portal
    · exact stepFold_eq_of_mem h1
    · exact stepFold_eq_of_blocked h1
        (List.any_eq_true.mpr ⟨d, hd, decide_eq_true hlt⟩)

theorem handled_foldSnapshots {st : EngineState} {snap : Snapshot}
    (snaps : List Snapshot) (h : handled st snap) :
    handled (foldSnapshots st snaps) snap := by
  induction snaps generalizing st with
  | nil => exact h
  | cons s rest ih =>
    simp only [foldSnapshots, List.foldl_cons]
    exact ih (handled_stepFold s h)

theorem handled_all_after_fold (snaps : List Snapshot) (st : EngineState) :
    ∀ snap ∈ snaps, handled (foldSnapshots st snaps) snap := by
  induction snaps generalizing st with
  | nil => intro snap h; cases h
  | cons s rest ih =>
    intro snap hsnap
    simp only [foldSnapshots, List.foldl_cons]
    rcases List.mem_cons.mp hsnap with rfl | hmem
    · exact handled_foldSnapshots rest (handled_stepFold_self st snap)
    · exact ih (stepFold st s) snap hmem

theorem foldSnapshots_of_all_handled (snaps : List Snapshot) (st : EngineState)
    (h : ∀ snap ∈ snaps, handled st snap) : foldSnapshots st snaps = st := by
  induction snaps with
  | nil => rfl
  | cons s rest ih =>
    simp only [foldSnapshots, List.foldl_cons]
    rw [stepFold_of_handled (h s (List.mem_cons_self s rest))]
    exact ih (fun snap hs => h snap (List.mem_cons_of_mem _ hs))

/-- C4: folding the same ordered snapshot sequence twice through the
engine yields exactly the state of folding it once: on the replay every
snapshot's date is already recorded for its portal, so each is detected as
a duplicate (or blocked as out of order) and no-ops, creating no duplicate
members and advancing no member automaton. -/
theorem replay_idempotent (st : EngineState) (snaps : List Snapshot) :
    foldSnapshots (foldSnapshots st snaps) snaps = foldSnapshots st snaps :=
  foldSnapshots_of_all_handled snaps (foldSnapshots st snaps)
    (handled_all_after_fold snaps st)

/-- Witness for C4 on a two-snapshot history folded from the empty
state. -/
theorem replay_idempotent_witness :
    foldSnapshots
        (foldSnapshots ⟨[], []⟩
          [⟨"immobiliare", 1, ["a"]⟩, ⟨"immobiliare", 2, []⟩])
        [⟨"immobiliare", 1, ["a"]⟩, ⟨"immobiliare", 2, []⟩] =
      foldSnapshots ⟨[], []⟩
        [⟨"immobiliare", 1, ["a"]⟩, ⟨"immobiliare", 2, []⟩] :=
  replay_idempotent ⟨[], []⟩ [⟨"immobiliare", 1, ["a"]⟩, ⟨"immobiliare", 2, []⟩]

/-- C7 (amended): a snapshot whose date is earlier than a date already
processed for its portal, and whose own date has not been processed, is
rejected at the engine boundary with a caller-visible error, and the fold
leaves the canonical state unchanged. -/
theorem out_of_order_rejected (st : EngineState) (snap : Snapshot)
    (h1 : snap.date ∉ portalProcessed st snap.portal)
    (h2 : ∃ d ∈ portalProcessed st snap.portal, snap.date < d) :
    ingest st snap = Except.error "out-of-order snapshot ingestion: caller must sort" ∧
    stepFold st snap = st := by
  have hb : (portalProcessed st snap.portal).any (fun d => decide (snap.date < d)) = true := by
    rcases h2 with ⟨d, hd, hlt⟩
    exact List.any_eq_true.mpr ⟨d, hd, decide_eq_true hlt⟩
  refine ⟨?_, stepFold_eq_of_blocked h1 hb⟩
  unfold ingest
  rw [if_neg h1, if_pos hb]

/-- Witness for C7: a fresh snapshot dated 1 arriving after date 2 was
processed is rejected and changes nothing. -/
theorem out_of_order_rejected_witness :
    ingest ⟨[("immobiliare", ⟨[2], ["a"]⟩)], []⟩ ⟨"immobiliare", 1, ["a"]⟩ =
      Except.error "out-of-order snapshot ingestion: caller must sort" ∧
    stepFold ⟨[("immobiliare", ⟨[2], ["a"]⟩)], []⟩ ⟨"immobiliare", 1, ["a"]⟩ =
      ⟨[("immobiliare", ⟨[2], ["a"]⟩)], []⟩ :=
  out_of_order_rejected ⟨[("immobiliare", ⟨[2], ["a"]⟩)], []⟩ ⟨"immobiliare", 1, ["a"]⟩
    (by decide) (by decide)

/-- Counterexample to C7 as stated: replaying the already-processed
snapshot dated 1, after date 2 was also processed, presents a snapshot
whose date is earlier than a processed one, yet ingestion succeeds as a
duplicate no-op instead of rejecting with an error (the behavior claims C4
and the spec's duplicate-replay taxonomy require). -/
theorem out_of_order_counterexample :
    (1 : ℕ) < 2 ∧
    2 ∈ portalProcessed ⟨[("immobiliare", ⟨[2, 1], ["a"]⟩)], []⟩ "immobiliare" ∧
    ingest ⟨[("immobiliare", ⟨[2, 1], ["a"]⟩)], []⟩ ⟨"immobiliare", 1, ["a"]⟩ =
      Except.ok ⟨[("immobiliare", ⟨[2, 1], ["a"]⟩)], []⟩ := by
  refine ⟨by decide, by decide, ?_⟩
  unfold ingest
  rw [if_pos (by decide :
    (⟨"immobiliare", 1, ["a"]⟩ : Snapshot).date ∈
      portalProcessed ⟨[("immobiliare", ⟨[2, 1], ["a"]⟩)], []⟩
        (⟨"immobiliare", 1, ["a"]⟩ : Snapshot).portal)]

/-- C3: a member live and present (NEW or ACTIVE) that is absent from
snapshot N and present again in snapshot N+1 is ACTIVE after N+1, so the
enclosing canonical listing's aggregate status is active after N+1 and is
not sold at N; a PENDING_VANISH member returns to ACTIVE on reappearance
in the very next snapshot, and reaches the terminal VANISHED exactly on
the second consecutive absence. -/
theorem debounce_reappearance (s : MemberState) (others : List MemberState)
    (h : s.phase = .NEW ∨ s.phase = .ACTIVE) :
    (memberStep (memberStep s false) true).phase = .ACTIVE ∧
    aggregateStatus (memberStep (memberStep s false) true :: others) = .active ∧
    aggregateStatus (memberStep s false :: others) ≠ .sold ∧
    (memberStep s false).phase = .PENDING_VANISH ∧
    (∀ e : Bool, memberStep ⟨.PENDING_VANISH, e⟩ true = ⟨.ACTIVE, true⟩) ∧
    (∀ e : Bool, (memberStep ⟨.PENDING_VANISH, e⟩ false).phase = .VANISHED) ∧
    (memberStep (memberStep s false) false).phase = .VANISHED := by
  obtain ⟨ph, e⟩ := s
  simp only at h
  rcases h with h | h <;> subst h <;>
    simp [memberStep, aggregateStatus, memberLive]

/-- Witness for C3 at an ACTIVE member with no sibling members. -/
theorem debounce_reappearance_witness :
    (memberStep (memberStep ⟨.ACTIVE, true⟩ false) true).phase = .ACTIVE ∧
    aggregateStatus [memberStep (memberStep ⟨.ACTIVE, true⟩ false) true] = .active ∧
    aggregateStatus [memberStep ⟨.ACTIVE, true⟩ false] ≠ .sold ∧
    (memberStep ⟨.ACTIVE, true⟩ false).phase = .PENDING_VANISH ∧
    memberStep ⟨.PENDING_VANISH, true⟩ true = ⟨.ACTIVE, true⟩ ∧
    (memberStep ⟨.PENDING_VANISH, false⟩ false).phase = .VANISHED ∧
    (memberStep (memberStep ⟨.ACTIVE, true⟩ false) false).phase = .VANISHED := by
  have h := debounce_reappearance ⟨.ACTIVE, true⟩ [] (Or.inr rfl)
  exact ⟨h.1, h.2.1, h.2.2.1, h.2.2.2.1, h.2.2.2.2.1 true,
    h.2.2.2.2.2.1 false, h.2.2.2.2.2.2⟩

/-- C5: the aggregate status is the stated deterministic function of the
member states: active iff some member is NEW, ACTIVE or PENDING_VANISH;
sold iff all members are VANISHED and some member was confirmed active;
removed-by-portal iff all members are VANISHED and none was ever
confirmed active; and the confirmed-active flag becomes true exactly by
entering ACTIVE. -/
theorem aggregate_status_derivation (members : List MemberState) :
    (aggregateStatus members = .active ↔
      ∃ m ∈ members,
        m.phase = .NEW ∨ m.phase = .ACTIVE ∨ m.phase = .PENDING_VANISH) ∧
    (aggregateStatus members = .sold ↔
      (∀ m ∈ members, m.phase = .VANISHED) ∧ ∃ m ∈ members, m.everActive = true) ∧
    (aggregateStatus members = .removedByPortal ↔
      (∀ m ∈ members, m.phase = .VANISHED) ∧ ∀ m ∈ members, m.everActive = false) ∧
    (∀ (s : MemberState) (b : Bool),
      (memberStep s b).everActive = true ↔
        (memberStep s b).phase = .ACTIVE ∨ s.everActive = true) := by
  have hlive : ∀ m : MemberState,
      memberLive m = true ↔
        (m.phase = .NEW ∨ m.phase = .ACTIVE ∨ m.phase = .PENDING_VANISH) := by
    rintro ⟨ph, e⟩
    cases ph <;> simp [memberLive]
  have hdead : ∀ m : MemberState,
      memberLive m = false ↔ m.phase = .VANISHED := by
    rintro ⟨ph, e⟩
    cases ph <;> simp [memberLive]
  have hA : members.any memberLive = true ↔
      ∃ m ∈ members,
        m.phase = .NEW ∨ m.phase = .ACTIVE ∨ m.phase = .PENDING_VANISH := by
    rw [List.any_eq_true]
    constructor
    · rintro ⟨m, hm, hl⟩
      exact ⟨m, hm, (hlive m).mp hl⟩
    · rintro ⟨m, hm, hl⟩
      exact ⟨m, hm, (hlive m).mpr hl⟩
  have hV : members.any memberLive = false ↔
      ∀ m ∈ members, m.phase = .VANISHED := by
    rw [List.any_eq_false]
    constructor
    · intro h m hm
      have := h m hm
      rw [Bool.not_eq_true] at this
      exact (hdead m).mp this
    · intro h m hm
      rw [Bool.not_eq_true]
      exact (hdead m).mpr (h m hm)
  have hE : members.any (fun m => m.everActive) = true ↔
      ∃ m ∈ members, m.everActive = true := List.any_eq_true
  have hE2 : members.any (fun m => m.everActive) = false ↔
      ∀ m ∈ members, m.everActive = false := by
    rw [List.any_eq_false]
    constructor
    · intro h m hm
      have := h m hm
      rwa [Bool.not_eq_true] at this
    · intro h m hm
      rw [Bool.not_eq_true]
      exact h m hm
  refine ⟨?_, ?_, ?_, ?_⟩
  · cases hany : members.any memberLive with
    | true => simp [aggregateStatus, hany, hA.mp hany]
    | false =>
      cases hever : members.any (fun m => m.everActive) with
      | true =>
        simp only [aggregateStatus, hany, hever, Bool.false_eq_true, if_false, if_true]
        constructor
        · intro h
          exact absurd h (by decide)
        · rintro ⟨m, hm, hl⟩
          have := hV.mp hany m hm
          rcases hl with h | h | h <;> rw [this] at h <;> cases h
      | false =>
        simp only [aggregateStatus, hany, hever, Bool.false_eq_true, if_false]
        constructor
        · intro h
          exact absurd h (by decide)
        · rintro ⟨m, hm, hl⟩
          have := hV.mp hany m hm
          rcases hl with h | h | h <;> rw [this] at h <;> cases h
  · cases hany : members.any memberLive with
    | true =>
      simp only [aggregateStatus, hany, if_true]
      constructor
      · intro h
        exact absurd h (by decide)
      · rintro ⟨hall, m, hm, he⟩
        rcases List.any_eq_true.mp hany with ⟨m2, hm2, hl2⟩
        have := hall m2 hm2
        rcases (hlive m2).mp hl2 with h | h | h <;> rw [this] at h <;> cases h
    | false =>
      cases hever : members.any (fun m => m.everActive) with
      | true =>
        simp only [aggregateStatus, hany, hever, Bool.false_eq_true, if_false, if_true]
        exact ⟨fun _ => ⟨hV.mp hany, hE.mp hever⟩, fun _ => trivial⟩
      | false =>
        simp only [aggregateStatus, hany, hever, Bool.false_eq_true, if_false]
        constructor
        · intro h
          exact absurd h (by decide)
        · rintro ⟨hall, m, hm, he⟩
          have := hE2.mp hever m hm
          rw [this] at he
          cases he
  · cases hany : members.any memberLive with
    | true =>
      simp only [aggregateStatus, hany, if_true]
      constructor
      · intro h
        exact absurd h (by decide)
      · rintro ⟨hall, _⟩
        rcases List.any_eq_true.mp hany with ⟨m2, hm2, hl2⟩
        have := hall m2 hm2
        rcases (hlive m2).mp hl2 with h | h | h <;> rw [this] at h <;> cases h
    | false =>
      cases hever : members.any (fun m => m.everActive) with
      | true =>
        simp only [aggregateStatus, hany, hever, Bool.false_eq_true, if_false, if_true]
        constructor
        · intro h
          exact absurd h (by decide)
        · rintro ⟨hall, hnone⟩
          rcases hE.mp hever with ⟨m, hm, he⟩
          have := hnone m hm
          rw [this] at he
          cases he
      | false =>
        simp only [aggregateStatus, hany, hever, Bool.false_eq_true, if_false]
        exact ⟨fun _ => ⟨hV.mp hany, hE2.mp hever⟩, fun _ => trivial⟩
  · rintro ⟨ph, e⟩ b
    cases ph <;> cases b <;> simp [memberStep]

/-- Witness for C5: two vanished members, one once confirmed active, make
a sold canonical listing. -/
theorem aggregate_status_derivation_witness :
    aggregateStatus [⟨.VANISHED, true⟩, ⟨.VANISHED, false⟩] = .sold :=
  (aggregate_status_derivation [⟨.VANISHED, true⟩, ⟨.VANISHED, false⟩]).2.1.mpr
    ⟨by decide, by decide⟩

end Houses
